import Mathlib

/-!
Verification development for `scripts/sync-release.py`, a cross-repository
release synchronization script.  The Python code is shallowly embedded:
network transports, clocks and the filesystem are explicit parameters, and
every function under verification is a computable Lean definition translated
from the source.
-/

namespace SyncRelease

/-- One outcome of a single call to `self.session.request` (or of a direct
`requests.get`/`requests.post`): either an HTTP response with a status code
and the integer value of the `X-RateLimit-Reset` header (`0` when the header
is absent, mirroring `headers.get('X-RateLimit-Reset', 0)`), or a
network-level `requests.exceptions.RequestException` raised by the transport. -/
inductive TransportEvent where
  | resp (status : Nat) (reset : Nat)
  | netErr (msg : String)
deriving Repr, DecidableEq

/-- The exception caught by the `except requests.exceptions.RequestException`
handler in `_make_request`: either an `HTTPError` produced by
`response.raise_for_status()` (a subclass of `RequestException`), or a
network-level error from the transport itself. -/
inductive ReqException where
  | httpError (status : Nat)
  | netError (msg : String)
deriving Repr, DecidableEq

/-- How a call to `_make_request` ends.  `noneReturned` models the implicit
`return None` of the Python function when the `for attempt in range(3)` loop
is exhausted without a `return` or a `raise` (possible only via the
rate-limit `continue` branch on the last attempt): the function is annotated
`-> requests.Response` yet yields `None`. -/
inductive MkOutcome where
  | ok (status : Nat) (reset : Nat)
  | raised (cause : ReqException)
  | noneReturned
deriving Repr, DecidableEq

/-- Result of `_make_request`: its outcome, the list of `time.sleep`
durations performed (in order), and the number of HTTP calls issued. -/
structure MkResult where
  outcome : MkOutcome
  sleeps : List Int
  calls : Nat
deriving Repr, DecidableEq

/-- The `for attempt in range(max_retries)` loop body of
`ReleaseSyncer._make_request`, lines 69-97 of `sync-release.py`.
`script i` is the transport's answer to the `i`-th HTTP call; `now` is the
current value of `time.time()`, advanced by every sleep; `fuel` is the
number of loop iterations left (`maxRetries - attempt`).

Per iteration, following the source:
* a 429 response with a nonzero reset header sleeps
  `max(reset_time - time.time(), 60)` and `continue`s — which in Python
  advances `attempt`;
* any other response goes through `response.raise_for_status()`, which
  raises `HTTPError` exactly for statuses in `[400, 600)`; that exception is
  caught by the `except RequestException` handler below;
* a caught exception on the last attempt raises
  `GitHubAPIError(... last cause ...)`; earlier attempts sleep
  `base_delay * 2 ** attempt` and retry;
* a response that does not raise is returned. -/
def mkLoop (script : Nat → TransportEvent) (maxRetries : Nat) (baseDelay : Int) :
    Nat → Nat → Int → List Int → MkResult
  | 0, attempt, _, sleeps => ⟨.noneReturned, sleeps, attempt⟩
  | fuel + 1, attempt, now, sleeps =>
    match script attempt with
    | .resp status reset =>
      if status = 429 ∧ reset ≠ 0 then
        let wait : Int := max ((reset : Int) - now) 60
        mkLoop script maxRetries baseDelay fuel (attempt + 1) (now + wait) (sleeps ++ [wait])
      else if 400 ≤ status ∧ status < 600 then
        if attempt = maxRetries - 1 then
          ⟨.raised (.httpError status), sleeps, attempt + 1⟩
        else
          let d : Int := baseDelay * 2 ^ attempt
          mkLoop script maxRetries baseDelay fuel (attempt + 1) (now + d) (sleeps ++ [d])
      else ⟨.ok status reset, sleeps, attempt + 1⟩
    | .netErr msg =>
      if attempt = maxRetries - 1 then
        ⟨.raised (.netError msg), sleeps, attempt + 1⟩
      else
        let d : Int := baseDelay * 2 ^ attempt
        mkLoop script maxRetries baseDelay fuel (attempt + 1) (now + d) (sleeps ++ [d])

/-- `ReleaseSyncer._make_request` with its hard-coded `max_retries = 3` and
`base_delay = 1`, started at attempt 0 with the clock at `now`. -/
def makeRequest (script : Nat → TransportEvent) (now : Int) : MkResult :=
  mkLoop script 3 1 3 0 now []

/-- A transport event that triggers the rate-limit branch of `_make_request`:
HTTP 429 with a nonzero `X-RateLimit-Reset` header. -/
def isRateLimited : TransportEvent → Prop
  | .resp s r => s = 429 ∧ r ≠ 0
  | .netErr _ => False

instance : DecidablePred isRateLimited := fun e =>
  match e with
  | .resp s r => inferInstanceAs (Decidable (s = 429 ∧ r ≠ 0))
  | .netErr _ => inferInstanceAs (Decidable False)

/-- Outcome of `ReleaseSyncer.get_release_info` as seen by its caller:
`jsonOf` is the parsed body of the returned response; `apiError` is a
propagated `GitHubAPIError`; `noneDereference` is the `AttributeError` crash
of `response.json()` when `_make_request` returned `None`. -/
inductive GetReleaseOutcome where
  | jsonOf (status : Nat) (reset : Nat)
  | apiError (cause : ReqException)
  | noneDereference
deriving Repr, DecidableEq

/-- `ReleaseSyncer.get_release_info`, lines 98-113: one `_make_request` call
followed by `response.json()` on the result. -/
def get_release_info (script : Nat → TransportEvent) (now : Int) : GetReleaseOutcome :=
  match (makeRequest script now).outcome with
  | .ok s r => .jsonOf s r
  | .raised c => .apiError c
  | .noneReturned => .noneDereference

/-- One asset of a release, with the JSON fields the script reads:
`assets[].name`, `assets[].url`, `assets[].size`. -/
structure Asset where
  name : String
  url : String
  size : Nat
deriving Repr, DecidableEq

/-- The release metadata fields the script reads from the API response. -/
structure ReleaseInfo where
  tag_name : String
  name : String
  body : String
  prerelease : Bool
  draft : Bool
  assets : List Asset
deriving Repr, DecidableEq

/-- One outbound network call, labelled with whether it was issued through
the resilient client `_make_request` (`via = true`) or as a direct
`requests.get`/`requests.post` bypassing it (`via = false`). -/
inductive NetCall where
  | getReleaseByTag (tag : String) (via : Bool)
  | deleteRelease (id : Nat) (via : Bool)
  | createRelease (tag : String) (via : Bool)
  | downloadAsset (url : String) (via : Bool)
  | uploadAsset (name : String) (via : Bool)
deriving Repr, DecidableEq

/-- Whether the call went through `_make_request`. -/
def NetCall.usesClient : NetCall → Bool
  | .getReleaseByTag _ v => v
  | .deleteRelease _ v => v
  | .createRelease _ v => v
  | .downloadAsset _ v => v
  | .uploadAsset _ v => v

/-- Whether the call is an asset-body transfer (download or upload) as
opposed to a metadata operation. -/
def NetCall.isAssetTransfer : NetCall → Bool
  | .downloadAsset _ _ => true
  | .uploadAsset _ _ => true
  | _ => false

/-- The `for i, asset in enumerate(release_info['assets'], 1)` loop of
`ReleaseSyncer.download_release_assets`, lines 136-171.  `transport url` is
the byte stream returned for the direct `requests.get(asset_url, ...)` of
that URL (the concatenation of all `iter_content` chunks, which is what
ends up written to the staged file).  The loop appends the staged file
`(asset.name, bytes)` and records the direct (non-client) download call. -/
def downloadLoop (transport : String → List Nat) :
    List Asset → List (String × List Nat) → List NetCall →
    List (String × List Nat) × List NetCall
  | [], files, calls => (files, calls)
  | a :: rest, files, calls =>
    downloadLoop transport rest (files ++ [(a.name, transport a.url)])
      (calls ++ [.downloadAsset a.url false])

/-- `ReleaseSyncer.download_release_assets`, lines 127-173: creates the
staging directory, returns no files for an asset-less release, otherwise
downloads every asset in release order.  Returns the staged files (name and
written bytes, in order) and the network-call trace. -/
def download_release_assets (transport : String → List Nat) (assets : List Asset) :
    List (String × List Nat) × List NetCall :=
  if assets.isEmpty then ([], []) else downloadLoop transport assets [] []

/-- Abstract outcomes of the destination-side API operations, standing for
whether each underlying `_make_request` call succeeds or raises
`GitHubAPIError`.  `tagExists` is the result of the existence probe;
`deleteLookupOk` is `some id` when the lookup GET inside
`delete_public_release` succeeds and returns release id `id`;
`deleteOk` is whether the DELETE succeeds; `createOk` whether the creation
POST succeeds; `htmlUrl` the `html_url` of the created release;
`uploadOkPrefix` the number of uploads that succeed before one fails (any
value at least the asset count means all uploads succeed). -/
structure PubEnv where
  tagExists : Bool
  deleteLookupOk : Option Nat
  deleteOk : Bool
  createOk : Bool
  htmlUrl : String
  uploadOkPrefix : Nat
deriving Repr, DecidableEq

/-- `ReleaseSyncer.check_public_release_exists`, lines 115-125: one GET via
`_make_request`; a `GitHubAPIError` is swallowed and reported as `false`. -/
def check_public_release_exists (env : PubEnv) (tag : String) :
    Bool × List NetCall :=
  (env.tagExists, [.getReleaseByTag tag true])

/-- `ReleaseSyncer.delete_public_release`, lines 204-223: GET the release by
tag to learn its id, then DELETE by id, both via `_make_request`; any
`GitHubAPIError` is caught and reported as `false`. -/
def delete_public_release (env : PubEnv) (tag : String) : Bool × List NetCall :=
  match env.deleteLookupOk with
  | none => (false, [.getReleaseByTag tag true])
  | some id =>
    if env.deleteOk then
      (true, [.getReleaseByTag tag true, .deleteRelease id true])
    else
      (false, [.getReleaseByTag tag true, .deleteRelease id true])

/-- How `create_public_release` ends, mirroring the exceptions it can
raise. -/
inductive PubOutcome where
  | ok (url : String)
  | alreadyExists (tag : String)
  | deleteFailed
  | createFailed
  | uploadFailed (name : String)
deriving Repr, DecidableEq

/-- The `for i, asset_file in enumerate(asset_files, 1)` upload loop of
lines 260-262: each iteration issues one direct (non-client)
`requests.post`; the first failing upload raises and aborts the
remaining ones.  `budget` is how many uploads still succeed. -/
def uploadLoop : List String → Nat → List NetCall → Option String × List NetCall
  | [], _, calls => (none, calls)
  | n :: _, 0, calls => (some n, calls ++ [.uploadAsset n false])
  | n :: rest, budget + 1, calls => uploadLoop rest budget (calls ++ [.uploadAsset n false])

/-- The creation-and-upload tail of `create_public_release`,
lines 239-264: POST the new release via `_make_request`, then upload each
staged asset in order with direct `requests.post` calls, returning the new
release's `html_url`. -/
def createAndUpload (env : PubEnv) (release : ReleaseInfo)
    (assetNames : List String) (pre : List NetCall) : PubOutcome × List NetCall :=
  if env.createOk then
    let r := uploadLoop assetNames env.uploadOkPrefix []
    match r.1 with
    | some n => (.uploadFailed n, pre ++ [.createRelease release.tag_name true] ++ r.2)
    | none => (.ok env.htmlUrl, pre ++ [.createRelease release.tag_name true] ++ r.2)
  else (.createFailed, pre ++ [.createRelease release.tag_name true])

/-- `ReleaseSyncer.create_public_release`, lines 225-264: probe for an
existing release with the same tag; if present and `force` is false raise
AlreadyExists; if present and `force` is true delete it first, raising a
delete-failure error when `delete_public_release` reports `false`; then
create the release and upload the staged assets in order. -/
def create_public_release (env : PubEnv) (release : ReleaseInfo)
    (assetNames : List String) (force : Bool) : PubOutcome × List NetCall :=
  let tag := release.tag_name
  let probe := check_public_release_exists env tag
  if probe.1 then
    if force then
      let del := delete_public_release env tag
      if del.1 then createAndUpload env release assetNames (probe.2 ++ del.2)
      else (.deleteFailed, probe.2 ++ del.2)
    else (.alreadyExists tag, probe.2)
  else createAndUpload env release assetNames probe.2

/-- Is the call the creation POST for a release? -/
def NetCall.isCreate : NetCall → Bool
  | .createRelease _ _ => true
  | _ => false

/-- Is the call the DELETE of a release? -/
def NetCall.isDelete : NetCall → Bool
  | .deleteRelease _ _ => true
  | _ => false

/-- A file in the staging directory as seen by `generate_checksums`:
its name, its byte content, and the result of the `file_path.is_file()`
check (false for directories and other non-regular entries). -/
structure StagedFile where
  name : String
  content : List Nat
  regular : Bool
deriving Repr, DecidableEq

/-- One lowercase hexadecimal digit, as produced by Python's
`hexdigest()`. -/
def hexChar (n : Nat) : Char :=
  if n < 10 then Char.ofNat (48 + n) else Char.ofNat (87 + n)

/-- Big-endian rendering of `v` as `k` hexadecimal digits. -/
def toHexDigits : Nat → Nat → List Char
  | 0, _ => []
  | k + 1, v => toHexDigits k (v / 16) ++ [hexChar (v % 16)]

/-- `sha256_hash.hexdigest()`: the 256-bit digest value rendered as 64
lowercase hexadecimal characters.  The digest value itself comes from the
abstract `hash` parameter below, standing for `hashlib.sha256`, which is
library code outside this repository. -/
def hexDigest (v : Nat) : String := ⟨toHexDigits 64 (v % 2 ^ 256)⟩

/-- The sixteen characters `hexdigest()` can emit. -/
def hexAlphabet : List Char := "0123456789abcdef".data

/-- `ReleaseSyncer.generate_checksums`, lines 175-190: for each file that
passes `is_file()`, an entry mapping the file name to the hex digest of its
content.  Asset names are unique within a release, so the Python dict is
an insertion-ordered association list without collisions. -/
def generate_checksums (hash : List Nat → Nat) (files : List StagedFile) :
    List (String × String) :=
  (files.filter fun f => f.regular).map fun f => (f.name, hexDigest (hash f.content))

/-- The `sorted(checksums.items())` of line 198: entries sorted by file
name (for distinct names, sorting pairs lexicographically is sorting by
the first component). -/
def manifestEntries (hash : List Nat → Nat) (files : List StagedFile) :
    List (String × String) :=
  List.insertionSort (fun a b => a.1 ≤ b.1) (generate_checksums hash files)

/-- The write loop of lines 198-199: one `f"{checksum}  {filename}\n"` line
per entry, concatenated in order. -/
def manifestText : List (String × String) → String
  | [] => ""
  | e :: rest => e.2 ++ "  " ++ e.1 ++ "\n" ++ manifestText rest

/-- `ReleaseSyncer.create_checksums_file`, lines 192-202: computes the
digests of the given files and writes them, sorted, to `checksums.txt` in
the staging directory.  Returns the file's name and its full text. -/
def create_checksums_file (hash : List Nat → Nat) (files : List StagedFile) :
    String × String :=
  ("checksums.txt", manifestText (manifestEntries hash files))

/-- Abstract outcomes of the stages of one sync, standing for whether each
stage's underlying I/O succeeds or raises: `fetchOk` for
`get_release_info`, `downloadRaises` for a failure inside
`download_release_assets` (after it created the staging directory),
`checksumRaises` for a failure while hashing or writing `checksums.txt`,
and `pub` for the destination-side API outcomes. -/
structure SyncEnv where
  fetchOk : Bool
  downloadRaises : Bool
  checksumRaises : Bool
  pub : PubEnv
deriving Repr, DecidableEq

/-- How `sync_release` ends: the returned URL, or the stage whose exception
propagated out after cleanup. -/
inductive SyncOutcome where
  | ok (url : String)
  | raisedFetch
  | raisedDownload
  | raisedChecksum
  | raisedPublish (e : PubOutcome)
deriving Repr, DecidableEq

/-- `ReleaseSyncer.sync_release`, lines 287-320.  `dir0` is whether the
staging directory `temp_assets` exists before the call; the returned `Bool`
is whether it exists afterwards.  Following the source: `get_release_info`
runs before the inner `try`, whose first action
(`download_release_assets`) creates the staging directory; the checksum
file is generated and appended to the asset list only when the release has
assets; publishing happens through `create_public_release`; and the inner
`finally` removes the staging directory (`shutil.rmtree`) whenever it
exists, on success and on every raising path alike. -/
def sync_release (env : SyncEnv) (release : ReleaseInfo) (force : Bool)
    (dir0 : Bool) : SyncOutcome × Bool :=
  if env.fetchOk then
    let result : SyncOutcome :=
      if env.downloadRaises then .raisedDownload
      else
        let names := release.assets.map Asset.name
        if names.isEmpty then
          match (create_public_release env.pub release names force).1 with
          | .ok url => .ok url
          | e => .raisedPublish e
        else if env.checksumRaises then .raisedChecksum
        else
          match (create_public_release env.pub release
              (names ++ ["checksums.txt"]) force).1 with
          | .ok url => .ok url
          | e => .raisedPublish e
    (result, false)
  else (.raisedFetch, dir0)

/-- Unrolled form of `downloadLoop`: files and calls are appended in asset
order. -/
lemma downloadLoop_spec (transport : String → List Nat) :
    ∀ (assets : List Asset) (files : List (String × List Nat)) (calls : List NetCall),
      downloadLoop transport assets files calls =
        (files ++ assets.map fun a => (a.name, transport a.url),
          calls ++ assets.map fun a => .downloadAsset a.url false) := by
  intro assets
  induction assets with
  | nil => intro files calls; simp [downloadLoop]
  | cons a rest ih => intro files calls; simp [downloadLoop, ih]

/-- The staged files produced by `download_release_assets`, in order. -/
lemma download_release_assets_fst (transport : String → List Nat) (assets : List Asset) :
    (download_release_assets transport assets).1 =
      assets.map fun a => (a.name, transport a.url) := by
  rw [download_release_assets]
  rcases assets with _ | ⟨a, rest⟩
  · simp
  · simp [downloadLoop_spec]

/-- The call trace of `download_release_assets`, in order. -/
lemma download_release_assets_snd (transport : String → List Nat) (assets : List Asset) :
    (download_release_assets transport assets).2 =
      assets.map fun a => .downloadAsset a.url false := by
  rw [download_release_assets]
  rcases assets with _ | ⟨a, rest⟩
  · simp
  · simp [downloadLoop_spec]

/-- C9 (amended): `download_release_assets` stages assets strictly in the
order of the release's asset list, at the asset's declared name, and the
staged file holds exactly the bytes delivered by the transport for the
asset's URL — the code performs no verification that this byte count equals
the asset's declared `size`. -/
theorem c9_downloads_in_order_with_delivered_bytes
    (transport : String → List Nat) (assets : List Asset) :
    (download_release_assets transport assets).1.map Prod.fst =
        assets.map Asset.name ∧
      (download_release_assets transport assets).1 =
        assets.map fun a => (a.name, transport a.url) := by
  refine ⟨?_, download_release_assets_fst transport assets⟩
  rw [download_release_assets_fst]
  simp

/-- C9 counterexample: an asset declaring `size = 5` whose transfer delivers
only 3 bytes is staged without error as a 3-byte file, so the staged size
does not equal the declared size. -/
theorem c9_counterexample :
    (download_release_assets (fun _ => [0, 0, 0])
          [⟨"app.zip", "https://u/1", 5⟩]).1.map (fun f => (f.1, f.2.length)) =
        [("app.zip", 3)] ∧
      (Asset.mk "app.zip" "https://u/1" 5).size = 5 ∧ (3 : Nat) ≠ 5 := by
  decide

/-- When the success budget covers every asset, the upload loop uploads all
of them, in order, and reports no failure. -/
lemma uploadLoop_all_ok :
    ∀ (ns : List String) (budget : Nat) (calls : List NetCall),
      ns.length ≤ budget →
      uploadLoop ns budget calls =
        (none, calls ++ ns.map fun n => .uploadAsset n false) := by
  intro ns
  induction ns with
  | nil => intro budget calls _; simp [uploadLoop]
  | cons n rest ih =>
    intro budget calls h
    rcases budget with _ | b
    · simp at h
    · rw [uploadLoop, ih b _ (by simpa using h)]
      simp

/-- Every call recorded by the upload loop beyond its accumulator is a
direct (non-client) asset upload. -/
lemma uploadLoop_mem :
    ∀ (ns : List String) (budget : Nat) (calls : List NetCall) (c : NetCall),
      c ∈ (uploadLoop ns budget calls).2 →
      c ∈ calls ∨ ∃ n, c = .uploadAsset n false := by
  intro ns
  induction ns with
  | nil => intro budget calls c hc; exact .inl hc
  | cons n rest ih =>
    intro budget calls c hc
    rcases budget with _ | b
    · simp only [uploadLoop] at hc
      rcases List.mem_append.1 hc with h | h
      · exact .inl h
      · exact .inr ⟨n, by simpa using h⟩
    · rcases ih b _ c hc with h | h
      · rcases List.mem_append.1 h with h' | h'
        · exact .inl h'
        · exact .inr ⟨n, by simpa using h'⟩
      · exact .inr h

/-- Every run of `_make_request` issues at most `attempt + fuel` HTTP calls:
each loop iteration, the rate-limit branch included, advances `attempt`. -/
lemma mkLoop_calls_le (script : Nat → TransportEvent) (m : Nat) (b : Int) :
    ∀ fuel attempt now sleeps,
      (mkLoop script m b fuel attempt now sleeps).calls ≤ attempt + fuel := by
  intro fuel
  induction fuel with
  | zero => intro attempt now sleeps; simp [mkLoop]
  | succ n ih =>
    intro attempt now sleeps
    rw [mkLoop]
    rcases he : script attempt with ⟨s, r⟩ | msg
    · by_cases h1 : s = 429 ∧ r ≠ 0
      · simp only [if_pos h1]
        exact le_trans (ih _ _ _) (by omega)
      · simp only [if_neg h1]
        by_cases h2 : 400 ≤ s ∧ s < 600
        · simp only [if_pos h2]
          by_cases h3 : attempt = m - 1
          · simp only [if_pos h3]; omega
          · simp only [if_neg h3]
            exact le_trans (ih _ _ _) (by omega)
        · simp only [if_neg h2]; omega
    · by_cases h3 : attempt = m - 1
      · simp only [if_pos h3]; omega
      · simp only [if_neg h3]
        exact le_trans (ih _ _ _) (by omega)

/-- C1 (amended): a 429 response with a nonzero reset header makes
`_make_request` sleep and `continue`, which in Python advances the loop
variable and hence consumes one of the 3 retry slots.  Consequently the
total number of HTTP calls never exceeds 3, and three consecutive
rate-limited responses exhaust the loop so that the function returns
`None` instead of retrying further. -/
theorem c1_rate_limit_consumes_slot (script : Nat → TransportEvent) (now : Int) :
    (makeRequest script now).calls ≤ 3 ∧
    (isRateLimited (script 0) → isRateLimited (script 1) → isRateLimited (script 2) →
      (makeRequest script now).outcome = .noneReturned ∧
        (makeRequest script now).calls = 3) := by
  constructor
  · exact mkLoop_calls_le script 3 1 3 0 now []
  · intro h0 h1 h2
    rcases he0 : script 0 with ⟨s0, r0⟩ | m0 <;> rw [he0] at h0 <;>
      simp only [isRateLimited] at h0
    rcases he1 : script 1 with ⟨s1, r1⟩ | m1 <;> rw [he1] at h1 <;>
      simp only [isRateLimited] at h1
    rcases he2 : script 2 with ⟨s2, r2⟩ | m2 <;> rw [he2] at h2 <;>
      simp only [isRateLimited] at h2
    obtain ⟨rfl, hr0⟩ := h0
    obtain ⟨rfl, hr1⟩ := h1
    obtain ⟨rfl, hr2⟩ := h2
    simp [makeRequest, mkLoop, he0, he1, he2, hr0, hr1, hr2]

/-- C1 witness: at a concrete all-429 transport the amended theorem applies. -/
theorem c1_witness :
    (makeRequest (fun _ => .resp 429 5) 0).outcome = .noneReturned ∧
      (makeRequest (fun _ => .resp 429 5) 0).calls = 3 :=
  (c1_rate_limit_consumes_slot (fun _ => .resp 429 5) 0).2
    (by decide) (by decide) (by decide)

/-- C1 counterexample: under the claim, three rate-limited responses
followed by a 200 would cost no retry slots and the 200 would be returned;
in the code the three 429s consume all three attempts (exactly three waits,
not unboundedly many) and the function ends with `None`, never reaching the
200. -/
theorem c1_counterexample :
    (makeRequest (fun n => if n < 3 then .resp 429 1 else .resp 200 0) 0).outcome =
        .noneReturned ∧
      (makeRequest (fun n => if n < 3 then .resp 429 1 else .resp 200 0) 0).calls = 3 ∧
      (makeRequest (fun n => if n < 3 then .resp 429 1 else .resp 200 0) 0).sleeps =
        [60, 60, 60] := by
  decide

/-- C2 (amended): a non-2xx status outside the 429-with-reset-header branch
does not fail immediately: `response.raise_for_status()` raises `HTTPError`,
which is a subclass of `RequestException` and is therefore caught by the
retry handler.  Three such responses in a row are retried with backoff
sleeps of 1 and 2 time units and finally raise the wrapped API error
carrying the last HTTP error. -/
theorem c2_http_errors_are_retried (script : Nat → TransportEvent) (now : Int)
    (s0 r0 s1 r1 s2 r2 : Nat)
    (h0 : script 0 = .resp s0 r0) (f0 : 400 ≤ s0 ∧ s0 < 600) (n0 : ¬(s0 = 429 ∧ r0 ≠ 0))
    (h1 : script 1 = .resp s1 r1) (f1 : 400 ≤ s1 ∧ s1 < 600) (n1 : ¬(s1 = 429 ∧ r1 ≠ 0))
    (h2 : script 2 = .resp s2 r2) (f2 : 400 ≤ s2 ∧ s2 < 600) (n2 : ¬(s2 = 429 ∧ r2 ≠ 0)) :
    makeRequest script now = ⟨.raised (.httpError s2), [1, 2], 3⟩ := by
  simp [makeRequest, mkLoop, h0, h1, h2, n0, n1, n2, f0, f1, f2]

/-- C2 witness: three consecutive 404 responses are retried twice and then
raise the wrapped error. -/
theorem c2_witness :
    makeRequest (fun _ => .resp 404 0) 0 = ⟨.raised (.httpError 404), [1, 2], 3⟩ :=
  c2_http_errors_are_retried (fun _ => .resp 404 0) 0 404 0 404 0 404 0
    rfl (by decide) (by decide) rfl (by decide) (by decide) rfl (by decide) (by decide)

/-- C2 counterexample: a 404 response followed by a 200.  The claim says the
404 propagates immediately with no retry; the code instead catches the
`HTTPError`, sleeps 1 time unit, retries, and returns the second response:
two HTTP calls are made and the final outcome is the 200. -/
theorem c2_counterexample :
    makeRequest (fun n => if n = 0 then .resp 404 0 else .resp 200 0) 0 =
      ⟨.ok 200 0, [1], 2⟩ := by
  decide

/-- C8: a request failing with a network-level exception on every attempt is
retried up to 3 attempts total, with sleeps `base * 2 ^ attempt` (base 1,
attempt from 0) between attempts — i.e. sleeps of 1 and 2 — and after the
third failure raises the wrapped API error carrying the last cause. -/
theorem c8_network_errors_backoff (script : Nat → TransportEvent) (now : Int)
    (m0 m1 m2 : String)
    (h0 : script 0 = .netErr m0) (h1 : script 1 = .netErr m1)
    (h2 : script 2 = .netErr m2) :
    makeRequest script now = ⟨.raised (.netError m2), [1, 2], 3⟩ := by
  simp [makeRequest, mkLoop, h0, h1, h2]

/-- C8 witness: a transport that always raises a connection error. -/
theorem c8_witness :
    makeRequest (fun _ => .netErr "connection reset") 7 =
      ⟨.raised (.netError "connection reset"), [1, 2], 3⟩ :=
  c8_network_errors_backoff (fun _ => .netErr "connection reset") 7
    "connection reset" "connection reset" "connection reset" rfl rfl rfl

/-- C10: three consecutive 429 responses with a nonzero reset header exhaust
the retry loop through the rate-limit `continue` branch, so `_make_request`
neither returns a response nor raises: it returns `None`, and
`get_release_info`, which calls `.json()` on the result, dereferences that
`None`. -/
theorem c10_rate_limit_exhaustion_returns_none :
    (makeRequest (fun _ => .resp 429 1) 0).outcome = .noneReturned ∧
      get_release_info (fun _ => .resp 429 1) 0 = .noneDereference := by
  decide

/-- C3: once the staging directory has been created (equivalently, once
`get_release_info` has succeeded, since the directory is created by the
first statement executed inside the inner `try`), the directory — and with
it every staged asset file and the manifest — is gone after `sync_release`
finishes, whether it returns a URL or raises at any later stage: the inner
`finally` removes it unconditionally. -/
theorem c3_staging_dir_always_cleaned (env : SyncEnv) (release : ReleaseInfo)
    (force : Bool) (dir0 : Bool) (h : env.fetchOk = true) :
    (sync_release env release force dir0).2 = false := by
  simp [sync_release, h]

/-- C3 witness: cleanup holds both on a successful sync and on one that
raises during download. -/
theorem c3_witness :
    (sync_release ⟨true, false, false, ⟨false, none, false, true, "https://pub/r3", 9⟩⟩
          ⟨"v1", "R", "B", false, false, []⟩ false true).2 = false ∧
      (sync_release ⟨true, true, false, ⟨false, none, false, true, "https://pub/r3", 9⟩⟩
          ⟨"v1", "R", "B", false, false, []⟩ false false).2 = false :=
  ⟨c3_staging_dir_always_cleaned _ _ _ _ rfl, c3_staging_dir_always_cleaned _ _ _ _ rfl⟩

/-- C5: with `force = false` and the tag already present at the
destination, `create_public_release` raises AlreadyExists after the single
existence probe: its trace is exactly that probe — zero release creations,
zero deletions, zero uploads, so the destination is untouched. -/
theorem c5_already_exists_without_force (env : PubEnv) (release : ReleaseInfo)
    (assetNames : List String) (h : env.tagExists = true) :
    (create_public_release env release assetNames false).1 =
        .alreadyExists release.tag_name ∧
      (create_public_release env release assetNames false).2 =
        [.getReleaseByTag release.tag_name true] ∧
      ∀ c ∈ (create_public_release env release assetNames false).2,
        c.isCreate = false ∧ c.isDelete = false ∧ c.isAssetTransfer = false := by
  refine ⟨?_, ?_, ?_⟩ <;>
    simp [create_public_release, check_public_release_exists, h,
      NetCall.isCreate, NetCall.isDelete, NetCall.isAssetTransfer]

/-- C5 witness: a concrete destination that already holds the tag. -/
theorem c5_witness :
    (create_public_release ⟨true, some 3, true, true, "https://pub/r", 9⟩
        ⟨"v1.0.0", "R", "B", false, false, []⟩ ["app.zip"] false).1 =
      .alreadyExists "v1.0.0" :=
  (c5_already_exists_without_force _ _ _ rfl).1

/-- Every call made by `delete_public_release` is the lookup GET or the
DELETE, both through the resilient client. -/
lemma delete_public_release_trace_mem (env : PubEnv) (tag : String) (c : NetCall)
    (hc : c ∈ (delete_public_release env tag).2) :
    c = .getReleaseByTag tag true ∨ ∃ i, c = .deleteRelease i true := by
  rcases hl : env.deleteLookupOk with _ | id <;>
    rw [delete_public_release, hl] at hc
  · exact .inl (by simpa using hc)
  · rcases hdo : env.deleteOk <;> rw [hdo] at hc <;> simp at hc <;>
      rcases hc with rfl | rfl
    · exact .inl rfl
    · exact .inr ⟨id, rfl⟩
    · exact .inl rfl
    · exact .inr ⟨id, rfl⟩

/-- C6: with `force = true` and the tag already present, the publisher
calls the delete operation first.  If the delete reports failure the
publisher raises a delete-failure error without any release creation or
upload; if the delete succeeds (and the creation and uploads go through)
it creates the release, uploads every staged asset in the given order, and
returns the destination URL. -/
theorem c6_force_deletes_then_creates (env : PubEnv) (release : ReleaseInfo)
    (assetNames : List String) (h : env.tagExists = true) :
    ((delete_public_release env release.tag_name).1 = false →
        (create_public_release env release assetNames true).1 = .deleteFailed ∧
          ∀ c ∈ (create_public_release env release assetNames true).2,
            c.isCreate = false ∧ c.isAssetTransfer = false) ∧
      ((delete_public_release env release.tag_name).1 = true →
        env.createOk = true →
        assetNames.length ≤ env.uploadOkPrefix →
        create_public_release env release assetNames true =
          (.ok env.htmlUrl,
            [.getReleaseByTag release.tag_name true] ++
              (delete_public_release env release.tag_name).2 ++
              [.createRelease release.tag_name true] ++
              assetNames.map fun n => .uploadAsset n false)) := by
  constructor
  · intro hdel
    constructor
    · simp [create_public_release, check_public_release_exists, h, hdel]
    · intro c hc
      rw [create_public_release] at hc
      simp only [check_public_release_exists] at hc
      simp [h, hdel] at hc
      rcases hc with rfl | hmem
      · simp [NetCall.isCreate, NetCall.isAssetTransfer]
      · rcases delete_public_release_trace_mem env release.tag_name c hmem with
          rfl | ⟨i, rfl⟩ <;> simp [NetCall.isCreate, NetCall.isAssetTransfer]
  · intro hdel hcreate hlen
    rw [create_public_release]
    simp only [check_public_release_exists]
    rw [createAndUpload, uploadLoop_all_ok assetNames env.uploadOkPrefix [] hlen]
    simp [h, hdel, hcreate]

/-- C6 witness: a concrete forced overwrite whose delete succeeds uploads
both staged assets in order and returns the URL. -/
theorem c6_witness :
    create_public_release ⟨true, some 7, true, true, "https://pub/r2", 2⟩
        ⟨"v2.0.0", "R", "B", false, false, []⟩ ["app.zip", "checksums.txt"] true =
      (.ok "https://pub/r2",
        [.getReleaseByTag "v2.0.0" true] ++
          (delete_public_release ⟨true, some 7, true, true, "https://pub/r2", 2⟩
              "v2.0.0").2 ++
          [.createRelease "v2.0.0" true] ++
          ["app.zip", "checksums.txt"].map fun n => .uploadAsset n false) :=
  (c6_force_deletes_then_creates _ _ _ rfl).2 (by decide) rfl (by decide)

/-- Every call in a `createAndUpload` trace beyond its prefix is the
creation POST (through the client) or a direct asset upload. -/
lemma createAndUpload_trace_mem (env : PubEnv) (release : ReleaseInfo)
    (assetNames : List String) (pre : List NetCall) (c : NetCall)
    (hc : c ∈ (createAndUpload env release assetNames pre).2) :
    c ∈ pre ∨ c = .createRelease release.tag_name true ∨
      ∃ n, c = .uploadAsset n false := by
  rw [createAndUpload] at hc
  rcases hco : env.createOk <;> simp only [hco] at hc
  · simp at hc
    rcases hc with h | rfl
    · exact .inl h
    · exact .inr (.inl rfl)
  · have hm : c ∈ pre ++ [NetCall.createRelease release.tag_name true] ++
        (uploadLoop assetNames env.uploadOkPrefix []).2 := by
      rcases hu : (uploadLoop assetNames env.uploadOkPrefix []).1 with _ | n <;>
        simpa [hu] using hc
    rcases List.mem_append.1 hm with h | h
    · rcases List.mem_append.1 h with h' | h'
      · exact .inl h'
      · exact .inr (.inl (by simpa using h'))
    · rcases uploadLoop_mem assetNames env.uploadOkPrefix [] c h with h' | h'
      · exact absurd h' (by simp)
      · exact .inr (.inr h')

/-- Every call in a full `create_public_release` trace is a metadata
operation through the resilient client or a direct asset upload. -/
lemma create_public_release_trace_mem (env : PubEnv) (release : ReleaseInfo)
    (assetNames : List String) (force : Bool) (c : NetCall)
    (hc : c ∈ (create_public_release env release assetNames force).2) :
    (∃ t, c = .getReleaseByTag t true) ∨ (∃ i, c = .deleteRelease i true) ∨
      (∃ t, c = .createRelease t true) ∨ ∃ n, c = .uploadAsset n false := by
  have handle : ∀ pre : List NetCall,
      (∀ d ∈ pre, (∃ t, d = NetCall.getReleaseByTag t true) ∨
        ∃ i, d = NetCall.deleteRelease i true) →
      c ∈ (createAndUpload env release assetNames pre).2 →
      (∃ t, c = NetCall.getReleaseByTag t true) ∨
        (∃ i, c = NetCall.deleteRelease i true) ∨
        (∃ t, c = NetCall.createRelease t true) ∨
        ∃ n, c = NetCall.uploadAsset n false := by
    intro pre hpre hm
    rcases createAndUpload_trace_mem env release assetNames pre c hm with h | rfl | h
    · exact (hpre c h).imp id .inl
    · exact .inr (.inr (.inl ⟨release.tag_name, rfl⟩))
    · exact .inr (.inr (.inr h))
  rw [create_public_release] at hc
  simp only [check_public_release_exists] at hc
  rcases hex : env.tagExists <;> simp only [hex] at hc
  · simp only [Bool.false_eq_true, if_false] at hc
    exact handle _ (by simp) hc
  · simp only [if_true] at hc
    rcases hf : force <;> simp only [hf] at hc
    · simp only [Bool.false_eq_true, if_false] at hc
      exact .inl ⟨release.tag_name, by simpa using hc⟩
    · simp only [if_true] at hc
      rcases hdl : (delete_public_release env release.tag_name).1 <;>
        simp only [hdl] at hc
      · simp only [Bool.false_eq_true, if_false] at hc
        simp at hc
        rcases hc with rfl | hmem
        · exact .inl ⟨release.tag_name, rfl⟩
        · exact (delete_public_release_trace_mem env release.tag_name c hmem).imp
            (fun h => ⟨release.tag_name, h⟩) .inl
      · simp only [if_true] at hc
        refine handle _ ?_ hc
        intro d hd
        rcases List.mem_append.1 hd with h | h
        · exact .inl ⟨release.tag_name, by simpa using h⟩
        · exact (delete_public_release_trace_mem env release.tag_name d h).imp
            (fun h' => ⟨release.tag_name, h'⟩) id

/-- C7 (amended): the resilient client underlies the metadata operations —
existence probes, delete lookup and delete, release creation — but not the
asset transfers: every asset download and every asset upload in a sync is
a direct `requests.get`/`requests.post` that bypasses `_make_request` and
its retry, backoff and rate-limit handling. -/
theorem c7_client_covers_metadata_not_transfers (env : PubEnv)
    (release : ReleaseInfo) (assetNames : List String) (force : Bool)
    (transport : String → List Nat) (assets : List Asset) :
    (∀ c ∈ (create_public_release env release assetNames force).2,
        c.usesClient = !c.isAssetTransfer) ∧
      ∀ c ∈ (download_release_assets transport assets).2,
        c.usesClient = false ∧ c.isAssetTransfer = true := by
  constructor
  · intro c hc
    rcases create_public_release_trace_mem env release assetNames force c hc with
      ⟨t, rfl⟩ | ⟨i, rfl⟩ | ⟨t, rfl⟩ | ⟨n, rfl⟩ <;>
      simp [NetCall.usesClient, NetCall.isAssetTransfer]
  · intro c hc
    rw [download_release_assets_snd] at hc
    rcases List.mem_map.1 hc with ⟨a, _, rfl⟩
    simp [NetCall.usesClient, NetCall.isAssetTransfer]

/-- C7 witness: a concrete download call from the amended theorem. -/
theorem c7_witness :
    NetCall.usesClient (.downloadAsset "https://u/2" false) = false ∧
      NetCall.isAssetTransfer (.downloadAsset "https://u/2" false) = true :=
  (c7_client_covers_metadata_not_transfers
      ⟨false, none, false, true, "https://pub/x", 0⟩
      ⟨"v", "n", "b", false, false, []⟩ [] false (fun _ => [])
      [⟨"a.bin", "https://u/2", 1⟩]).2
    (.downloadAsset "https://u/2" false) (by decide)

/-- C7 counterexample: in a sync of one asset the download is a direct
`requests.get` and the upload a direct `requests.post`, neither through
`_make_request`, refuting the claim that every outbound call goes through
the resilient client. -/
theorem c7_counterexample :
    (download_release_assets (fun _ => [1]) [⟨"a.zip", "https://u/a", 1⟩]).2 =
        [.downloadAsset "https://u/a" false] ∧
      (create_public_release ⟨false, none, false, true, "https://pub/r", 1⟩
            ⟨"v1", "n", "b", false, false, []⟩ ["a.zip"] false).2 =
        [.getReleaseByTag "v1" true, .createRelease "v1" true,
          .uploadAsset "a.zip" false] ∧
      NetCall.usesClient (.downloadAsset "https://u/a" false) = false ∧
      NetCall.usesClient (.uploadAsset "a.zip" false) = false := by
  decide

/-- `toHexDigits` always renders exactly the requested digit count. -/
lemma toHexDigits_length : ∀ k v : Nat, (toHexDigits k v).length = k := by
  intro k
  induction k with
  | zero => intro v; simp [toHexDigits]
  | succ n ih => intro v; simp [toHexDigits, ih]

/-- Digits below 16 map into the lowercase hexadecimal alphabet. -/
lemma hexChar_mem_hexAlphabet : ∀ m, m < 16 → hexChar m ∈ hexAlphabet := by decide

/-- Every character rendered by `toHexDigits` is a lowercase hex digit. -/
lemma toHexDigits_mem :
    ∀ (k v : Nat) (c : Char), c ∈ toHexDigits k v → c ∈ hexAlphabet := by
  intro k
  induction k with
  | zero => intro v c hc; simp [toHexDigits] at hc
  | succ n ih =>
    intro v c hc
    rw [toHexDigits] at hc
    rcases List.mem_append.1 hc with h | h
    · exact ih _ _ h
    · have hce : c = hexChar (v % 16) := by simpa using h
      subst hce
      exact hexChar_mem_hexAlphabet _ (Nat.mod_lt _ (by norm_num))

/-- `hexdigest()` output shape: 64 characters, all lowercase hex. -/
lemma hexDigest_spec (v : Nat) :
    (hexDigest v).data.length = 64 ∧ ∀ c ∈ (hexDigest v).data, c ∈ hexAlphabet := by
  constructor
  · exact toHexDigits_length 64 _
  · intro c hc
    exact toHexDigits_mem 64 _ c hc

/-- The manifest text of a non-empty entry list ends in a newline. -/
lemma manifestText_trailing :
    ∀ l : List (String × String), l ≠ [] → ∃ s : String, manifestText l = s ++ "\n"
  | [], h => absurd rfl h
  | [e], _ => ⟨e.2 ++ "  " ++ e.1, by
      rw [manifestText, manifestText]
      exact String.append_empty _⟩
  | e :: e' :: t, _ => by
      obtain ⟨s, hs⟩ := manifestText_trailing (e' :: t) (by simp)
      exact ⟨e.2 ++ "  " ++ e.1 ++ "\n" ++ s, by
        rw [manifestText, hs]
        exact (String.append_assoc _ _ _).symm⟩

/-- C4: for a non-empty list of staged asset files (all regular — they were
just written by the download loop — with the distinct names GitHub
guarantees within one release, and not containing the manifest itself,
whose digests are computed before it is written), the manifest written by
`create_checksums_file` is named `checksums.txt` and consists of exactly
one `<digest><two spaces><filename>` newline-terminated line per staged
file, entries sorted by filename, every digest being 64 lowercase hex
characters, the manifest absent from its own digest set, and the whole
text ending in a newline. -/
theorem c4_manifest_structure (hash : List Nat → Nat) (files : List StagedFile)
    (hne : files ≠ [])
    (hreg : ∀ f ∈ files, f.regular = true)
    (_hnodup : (files.map StagedFile.name).Nodup)
    (hnoman : "checksums.txt" ∉ files.map StagedFile.name) :
    (create_checksums_file hash files).1 = "checksums.txt" ∧
      (create_checksums_file hash files).2 =
        manifestText (manifestEntries hash files) ∧
      (manifestEntries hash files).Perm
        (files.map fun f => (f.name, hexDigest (hash f.content))) ∧
      (manifestEntries hash files).length = files.length ∧
      (manifestEntries hash files).Sorted (fun a b => a.1 ≤ b.1) ∧
      "checksums.txt" ∉ (manifestEntries hash files).map Prod.fst ∧
      (∀ e ∈ manifestEntries hash files,
        e.2.data.length = 64 ∧ ∀ ch ∈ e.2.data, ch ∈ hexAlphabet) ∧
      ∃ s : String, (create_checksums_file hash files).2 = s ++ "\n" := by
  have hfilter : files.filter (fun f => f.regular) = files :=
    List.filter_eq_self.2 (by intro f hf; simpa using hreg f hf)
  have hgen : generate_checksums hash files =
      files.map fun f => (f.name, hexDigest (hash f.content)) := by
    rw [generate_checksums, hfilter]
  have hperm : (manifestEntries hash files).Perm
      (files.map fun f => (f.name, hexDigest (hash f.content))) := by
    rw [manifestEntries, hgen]
    exact List.perm_insertionSort _ _
  have hlen : (manifestEntries hash files).length = files.length := by
    rw [hperm.length_eq, List.length_map]
  refine ⟨rfl, rfl, hperm, hlen, ?_, ?_, ?_, ?_⟩
  · haveI : IsTotal (String × String) (fun a b => a.1 ≤ b.1) :=
      ⟨fun a b => le_total a.1 b.1⟩
    haveI : IsTrans (String × String) (fun a b => a.1 ≤ b.1) :=
      ⟨fun a b c hab hbc => le_trans hab hbc⟩
    exact List.sorted_insertionSort _ _
  · have hmap : ((manifestEntries hash files).map Prod.fst).Perm
        (files.map StagedFile.name) := by
      have := hperm.map Prod.fst
      simpa [Function.comp] using this
    rw [hmap.mem_iff]
    exact hnoman
  · intro e he
    have hmem : e ∈ files.map fun f => (f.name, hexDigest (hash f.content)) :=
      hperm.mem_iff.1 he
    rcases List.mem_map.1 hmem with ⟨f, _, rfl⟩
    exact hexDigest_spec (hash f.content)
  · refine manifestText_trailing _ ?_
    intro hnil
    have : files.length = 0 := by rw [← hlen, hnil]; rfl
    exact hne (List.length_eq_zero.1 this)

/-- C4 witness: two concrete staged files; their manifest satisfies every
clause of the theorem. -/
theorem c4_witness :
    (create_checksums_file (fun l => l.length)
          [⟨"b.bin", [2, 3], true⟩, ⟨"a.bin", [7], true⟩]).1 = "checksums.txt" ∧
      (create_checksums_file (fun l => l.length)
            [⟨"b.bin", [2, 3], true⟩, ⟨"a.bin", [7], true⟩]).2 =
        manifestText (manifestEntries (fun l => l.length)
          [⟨"b.bin", [2, 3], true⟩, ⟨"a.bin", [7], true⟩]) ∧
      (manifestEntries (fun l => l.length)
          [⟨"b.bin", [2, 3], true⟩, ⟨"a.bin", [7], true⟩]).Perm
        ([⟨"b.bin", [2, 3], true⟩, ⟨"a.bin", [7], true⟩].map
          fun f : StagedFile => (f.name, hexDigest ((fun l : List Nat => l.length) f.content))) ∧
      (manifestEntries (fun l => l.length)
          [⟨"b.bin", [2, 3], true⟩, ⟨"a.bin", [7], true⟩]).length =
        ([⟨"b.bin", [2, 3], true⟩, ⟨"a.bin", [7], true⟩] : List StagedFile).length ∧
      (manifestEntries (fun l => l.length)
          [⟨"b.bin", [2, 3], true⟩, ⟨"a.bin", [7], true⟩]).Sorted
        (fun a b => a.1 ≤ b.1) ∧
      "checksums.txt" ∉ (manifestEntries (fun l => l.length)
          [⟨"b.bin", [2, 3], true⟩, ⟨"a.bin", [7], true⟩]).map Prod.fst ∧
      (∀ e ∈ manifestEntries (fun l => l.length)
          [⟨"b.bin", [2, 3], true⟩, ⟨"a.bin", [7], true⟩],
        e.2.data.length = 64 ∧ ∀ ch ∈ e.2.data, ch ∈ hexAlphabet) ∧
      ∃ s : String,
        (create_checksums_file (fun l => l.length)
            [⟨"b.bin", [2, 3], true⟩, ⟨"a.bin", [7], true⟩]).2 = s ++ "\n" :=
  c4_manifest_structure (fun l => l.length)
    [⟨"b.bin", [2, 3], true⟩, ⟨"a.bin", [7], true⟩]
    (by decide) (by decide) (by decide) (by decide)

end SyncRelease
